import Mathlib

/-!
Shallow embedding of `cmd/czds-request/request.go` (the czds request CLI).

The program drives five workflows (terms, status, request, extend, cancel)
against a remote CZDS client. We model the remote client as a record of
pure stubs (`Env`), record every call the program issues in a trace, model
`fmt.Printf` reports as an output list, and model `log.Fatal` as a fatal
result that stops the run.
-/

namespace Czds

/-- The command-line flags of `request.go` (lines 14-29) that the `main`
logic reads. Each field keeps the Go flag variable's name. -/
structure Flags where
  username : String
  password : String
  passin : String
  reason : String
  printTerms : Bool
  requestTLDs : String
  requestAll : Bool
  status : Bool
  extendTLDs : String
  extendAll : Bool
  exclude : String
  cancelTLDs : String
deriving DecidableEq, Repr

/-- One observable call or event issued by `main`: the `czds.Getpass`
credential lookup, the `czds.NewClient` construction event, and each
remote method invoked on the client. -/
inductive Call where
  | getpass (src : String)
  | newClient (user pass : String)
  | authenticate
  | getTerms
  | getTLDStatus
  | requestAllTLDsExcept (reason : String) (exclude : List String)
  | requestTLDs (tlds : List String) (reason : String)
  | extendAllTLDsExcept (exclude : List String)
  | extendTLD (tld : String)
  | getZoneRequestID (zone : String)
  | cancelRequest (requestID : String) (tldName : String)
deriving DecidableEq, Repr

/-- One line of report output printed by `main` on stdout. -/
inductive Output where
  | termsOut (version content : String)
  | statusLine (tld currentStatus : String)
  | requested (tlds : List String)
  | extended (tlds : List String)
  | canceled (tlds : List String)
deriving DecidableEq, Repr

/-- How a run ends: normal termination, or `log.Fatal` with a message. -/
inductive RunResult where
  | finished
  | fatal (msg : String)
deriving DecidableEq, Repr

/-- The observable behaviour of one invocation: calls issued in order,
report lines printed in order, and how the process ended. -/
structure RunOutcome where
  trace : List Call
  output : List Output
  result : RunResult
deriving DecidableEq, Repr

/-- A stub of the remote CZDS client (and of `czds.Getpass`): each
operation of the Session Client is a pure function returning either a
value or an error string. -/
structure Env where
  getpass : String → Except String String
  authenticate : Except String Unit
  getTerms : Except String (String × String)
  getTLDStatus : Except String (List (String × String))
  requestAllTLDsExcept : String → List String → Except String (List String)
  requestTLDs : List String → String → Except String Unit
  extendAllTLDsExcept : List String → Except String (List String)
  extendTLD : String → Except String Unit
  getZoneRequestID : String → Except String String
  cancelRequest : String → String → Except String Unit

/-- Go's `strings.Split(s, ",")`: split on every comma, keep empty tokens,
trim nothing; the empty string yields `[""]`. -/
def goSplit (s : String) : List String :=
  (s.toList.splitOn ',').map List.asString

/-- The result of one workflow block of `main`: the calls it issued, the
report lines it printed, and `some msg` if it hit `log.Fatal msg`. -/
abbrev StepResult := List Call × List Output × Option String

/-- Terms block (request.go lines 97-105). -/
def termsStep (flags : Flags) (env : Env) : StepResult :=
  if flags.printTerms then
    match env.getTerms with
    | .error e => ([Call.getTerms], [], some e)
    | .ok (ver, content) => ([Call.getTerms], [Output.termsOut ver content], none)
  else ([], [], none)

/-- Status block (request.go lines 108-116). -/
def statusStep (flags : Flags) (env : Env) : StepResult :=
  if flags.status then
    match env.getTLDStatus with
    | .error e => ([Call.getTLDStatus], [], some e)
    | .ok allTLDStatus =>
        ([Call.getTLDStatus],
         allTLDStatus.map (fun ts => Output.statusLine ts.1 ts.2), none)
  else ([], [], none)

/-- Request block (request.go lines 119-140): empty-reason guard, then
either one bulk call or one explicit call on the split list; the
reported list for explicit mode is the literal split list. -/
def requestStep (flags : Flags) (env : Env) : StepResult :=
  if flags.requestAll || flags.requestTLDs ≠ "" then
    if flags.reason = "" then
      ([], [], some "Must pass a reason to request TLDs")
    else if flags.requestAll then
      match env.requestAllTLDsExcept flags.reason (goSplit flags.exclude) with
      | .error e =>
          ([Call.requestAllTLDsExcept flags.reason (goSplit flags.exclude)], [], some e)
      | .ok requestedTLDs =>
          ([Call.requestAllTLDsExcept flags.reason (goSplit flags.exclude)],
           if requestedTLDs ≠ [] then [Output.requested requestedTLDs] else [], none)
    else
      let tlds := goSplit flags.requestTLDs
      match env.requestTLDs tlds flags.reason with
      | .error e => ([Call.requestTLDs tlds flags.reason], [], some e)
      | .ok _ =>
          ([Call.requestTLDs tlds flags.reason],
           if tlds ≠ [] then [Output.requested tlds] else [], none)
  else ([], [], none)

/-- The explicit-extend loop (request.go lines 149-156): one
`ExtendTLD` call per zone, breaking on the first error. -/
def extendLoop (env : Env) : List String → List Call × Option String
  | [] => ([], none)
  | tld :: rest =>
    match env.extendTLD tld with
    | .error e => ([Call.extendTLD tld], some e)
    | .ok _ =>
      let (calls, r) := extendLoop env rest
      (Call.extendTLD tld :: calls, r)

/-- Extend block (request.go lines 142-166): bulk call or the explicit
loop; `extendedTLDs` is the full split list no matter where the loop
stopped, but on error `log.Fatal` fires before the report is printed. -/
def extendStep (flags : Flags) (env : Env) : StepResult :=
  if flags.extendAll || flags.extendTLDs ≠ "" then
    if flags.extendAll then
      match env.extendAllTLDsExcept (goSplit flags.exclude) with
      | .error e => ([Call.extendAllTLDsExcept (goSplit flags.exclude)], [], some e)
      | .ok extendedTLDs =>
          ([Call.extendAllTLDsExcept (goSplit flags.exclude)],
           if extendedTLDs ≠ [] then [Output.extended extendedTLDs] else [], none)
    else
      let tlds := goSplit flags.extendTLDs
      match extendLoop env tlds with
      | (calls, some e) => (calls, [], some e)
      | (calls, none) =>
          (calls, if tlds ≠ [] then [Output.extended tlds] else [], none)
  else ([], [], none)

/-- `cancelRequest` (request.go lines 191-205): look up the zone's
outstanding request ID, and only on success issue the cancel call. -/
def cancelRequestFn (env : Env) (zone : String) : List Call × Option String :=
  match env.getZoneRequestID zone with
  | .error e => ([Call.getZoneRequestID zone], some e)
  | .ok zoneID =>
    match env.cancelRequest zoneID zone with
    | .error e => ([Call.getZoneRequestID zone, Call.cancelRequest zoneID zone], some e)
    | .ok _ => ([Call.getZoneRequestID zone, Call.cancelRequest zoneID zone], none)

/-- The cancel loop (request.go lines 170-177): `cancelRequest` per zone,
breaking on the first error. -/
def cancelLoop (env : Env) : List String → List Call × Option String
  | [] => ([], none)
  | tld :: rest =>
    match cancelRequestFn env tld with
    | (calls, some e) => (calls, some e)
    | (calls, none) =>
      let (calls2, r) := cancelLoop env rest
      (calls ++ calls2, r)

/-- Cancel block (request.go lines 168-184). Its guard `doCancel` is
`len(*extendTLDs) > 0` in the source (line 77) — the extend list, not the
cancel list — which we mirror verbatim. -/
def cancelStep (flags : Flags) (env : Env) : StepResult :=
  if flags.extendTLDs ≠ "" then
    let tlds := goSplit flags.cancelTLDs
    match cancelLoop env tlds with
    | (calls, some e) => (calls, [], some e)
    | (calls, none) =>
        (calls, if tlds ≠ [] then [Output.canceled tlds] else [], none)
  else ([], [], none)

/-- Authentication (request.go lines 90-94), as a step. -/
def authStep (env : Env) : StepResult :=
  match env.authenticate with
  | .error e => ([Call.authenticate], [], some e)
  | .ok _ => ([Call.authenticate], [], none)

/-- Run a list of step results in order, accumulating calls and output,
stopping at the first `log.Fatal`. -/
def runSteps (tr : List Call) (outp : List Output) :
    List StepResult → RunOutcome
  | [] => ⟨tr, outp, RunResult.finished⟩
  | (c, o, r) :: rest =>
    match r with
    | some e => ⟨tr ++ c, outp ++ o, RunResult.fatal e⟩
    | none => runSteps (tr ++ c) (outp ++ o) rest

/-- `main` after the password is resolved (request.go lines 75-184):
compute the three intent booleans, check "Nothing to do!", construct the
client, then run authentication and the five workflow blocks in source
order. -/
def runAfterPassword (flags : Flags) (env : Env) (p : String)
    (tr : List Call) : RunOutcome :=
  let doRequest := flags.requestAll || flags.requestTLDs ≠ ""
  let doExtend := flags.extendAll || flags.extendTLDs ≠ ""
  let doCancel := flags.extendTLDs ≠ ""
  if !flags.printTerms && !flags.status && !(doRequest || doExtend) && !doCancel then
    ⟨tr, [], RunResult.fatal "Nothing to do!"⟩
  else
    runSteps (tr ++ [Call.newClient flags.username p]) []
      [authStep env, termsStep flags env, statusStep flags env,
       requestStep flags env, extendStep flags env, cancelStep flags env]

/-- `main` (request.go lines 63-185): resolve the password — `Getpass` is
consulted only when the `-password` flag is empty (lines 66-73) — then run
the rest. -/
def runMain (flags : Flags) (env : Env) : RunOutcome :=
  if flags.password = "" then
    match env.getpass flags.passin with
    | .error e =>
        ⟨[Call.getpass flags.passin], [],
         RunResult.fatal ("Unable to get password from user: " ++ e)⟩
    | .ok pass => runAfterPassword flags env pass [Call.getpass flags.passin]
  else
    runAfterPassword flags env flags.password []

/-! ### Classification, step predicates and fixtures -/

/-- Workflow class of a call, in the source order of `main`: credential
lookup, client construction, authentication, then the five workflow
blocks terms, status, request, extend, cancel. -/
def classOf : Call → Nat
  | .getpass _ => 0
  | .newClient _ _ => 1
  | .authenticate => 2
  | .getTerms => 3
  | .getTLDStatus => 4
  | .requestAllTLDsExcept _ _ => 5
  | .requestTLDs _ _ => 5
  | .extendAllTLDsExcept _ => 6
  | .extendTLD _ => 6
  | .getZoneRequestID _ => 7
  | .cancelRequest _ _ => 7

/-- Every call issued by the step list satisfies `P`, where steps after a
fatal step are not required to (they are never reached). -/
def TracePred (P : Call → Prop) : List StepResult → Prop
  | [] => True
  | (c, _, r) :: rest => (∀ x ∈ c, P x) ∧ (r = none → TracePred P rest)

/-- The step list issues calls of weakly ascending workflow class,
starting no lower than `n`. -/
def StepsAscending : Nat → List StepResult → Prop
  | _, [] => True
  | n, (c, _, _) :: rest =>
      ∃ m, n ≤ m ∧ (∀ x ∈ c, classOf x = m) ∧ StepsAscending m rest

/-- Calls issued by the cancel loop for one zone that succeeds, given the
request ID the lookup returns. -/
def cancelCallsFor (idOf : String → String) (z : String) : List Call :=
  [Call.getZoneRequestID z, Call.cancelRequest (idOf z) z]

/-- A stub client on which every operation succeeds. -/
def okEnv : Env where
  getpass := fun _ => Except.ok "pw"
  authenticate := Except.ok ()
  getTerms := Except.ok ("v1", "terms text")
  getTLDStatus := Except.ok [("com", "approved"), ("org", "pending")]
  requestAllTLDsExcept := fun _ _ => Except.ok ["com", "org"]
  requestTLDs := fun _ _ => Except.ok ()
  extendAllTLDsExcept := fun _ => Except.ok ["net"]
  extendTLD := fun _ => Except.ok ()
  getZoneRequestID := fun z => Except.ok ("id-" ++ z)
  cancelRequest := fun _ _ => Except.ok ()

/-- Base flag assignment: username and password supplied, every intent off. -/
def baseFlags : Flags where
  username := "u"
  password := "p"
  passin := ""
  reason := ""
  printTerms := false
  requestTLDs := ""
  requestAll := false
  status := false
  extendTLDs := ""
  extendAll := false
  exclude := ""
  cancelTLDs := ""

/-- Only a cancel list supplied. -/
def flagsOnlyCancel : Flags := { baseFlags with cancelTLDs := "x" }

/-- Only an extend list supplied; the cancel list is empty. -/
def flagsExtendOnly : Flags := { baseFlags with extendTLDs := "a" }

/-- An explicit extend list `a,b,c`. -/
def flagsExtendAbc : Flags := { baseFlags with extendTLDs := "a,b,c" }

/-- A stub on which extending zone `b` fails and everything else succeeds. -/
def envFailB : Env :=
  { okEnv with extendTLD := fun t => if t = "b" then Except.error "boom" else Except.ok () }

/-- An explicit request list but no reason. -/
def flagsNoReason : Flags := { baseFlags with requestTLDs := "a" }

/-- An extend list (so the cancel workflow is enabled) and a cancel list `w,x,y`. -/
def flagsCancelWxy : Flags := { baseFlags with extendTLDs := "e", cancelTLDs := "w,x,y" }

/-- A stub on which the request-ID lookup for zone `x` fails. -/
def envFailLookupX : Env :=
  { okEnv with getZoneRequestID :=
      fun z => if z = "x" then Except.error "nope" else Except.ok ("id-" ++ z) }

/-- Every intent enabled at once. -/
def flagsAllIntents : Flags :=
  { baseFlags with
    printTerms := true
    status := true
    requestAll := true
    reason := "r"
    extendAll := true
    extendTLDs := "e"
    cancelTLDs := "z" }

/-- A stub on which authentication fails. -/
def envAuthFail : Env := { okEnv with authenticate := Except.error "badauth" }

/-- A stub on which the password lookup fails. -/
def envPassFail : Env := { okEnv with getpass := fun _ => Except.error "nopw" }

/-- No direct password: only a `passin` source, plus one intent. -/
def flagsPassin : Flags := { baseFlags with password := "", passin := "env:X", status := true }

/-- An explicit request list with duplicates and an empty token. -/
def flagsReqDup : Flags := { baseFlags with requestTLDs := "a,,a", reason := "r" }

/-- An explicit request list `a,b` with a reason. -/
def flagsReqAb : Flags := { baseFlags with requestTLDs := "a,b", reason := "r" }

/-- A stub on which the explicit request call fails. -/
def envReqFail : Env := { okEnv with requestTLDs := fun _ _ => Except.error "reqfail" }

/-- Bulk request with no exclusions supplied. -/
def flagsBulkReq : Flags := { baseFlags with requestAll := true, reason := "r" }

/-- Bulk extend with no exclusions supplied. -/
def flagsBulkExt : Flags := { baseFlags with extendAll := true }

/-! ### Properties of `goSplit` (Go `strings.Split` on a comma) -/

theorem splitOnP_length_countP (p : Char → Bool) (l : List Char) :
    (l.splitOnP p).length = l.countP p + 1 := by
  induction l with
  | nil => simp [List.splitOnP_nil]
  | cons x xs ih =>
    rw [List.splitOnP_cons, List.countP_cons]
    by_cases h : p x = true
    · simp [h, ih]
    · simp [h, List.length_modifyHead, ih]

theorem splitOnP_no_sep (p : Char → Bool) (l : List Char) :
    ∀ t ∈ l.splitOnP p, ∀ x ∈ t, p x = false := by
  induction l with
  | nil =>
    intro t ht
    rw [List.splitOnP_nil, List.mem_singleton] at ht
    subst ht
    intro x hx
    exact absurd hx (List.not_mem_nil x)
  | cons c cs ih =>
    intro t ht
    rw [List.splitOnP_cons] at ht
    by_cases h : p c = true
    · rw [if_pos h] at ht
      rcases List.mem_cons.mp ht with h' | h'
      · subst h'
        intro x hx
        exact absurd hx (List.not_mem_nil x)
      · exact ih t h'
    · rw [if_neg h] at ht
      rcases h' : cs.splitOnP p with _ | ⟨hd, tl⟩
      · exact absurd h' (List.splitOnP_ne_nil p cs)
      · rw [h', List.modifyHead_cons] at ht
        rcases List.mem_cons.mp ht with h'' | h''
        · subst h''
          intro x hx
          rcases List.mem_cons.mp hx with h3 | h3
          · subst h3
            exact Bool.eq_false_iff.mpr h
          · exact ih hd (h' ▸ List.mem_cons_self hd tl) x h3
        · exact ih t (h' ▸ List.mem_cons_of_mem hd h'')

theorem goSplit_roundtrip (s : String) :
    List.intercalate [','] ((goSplit s).map String.toList) = s.toList := by
  have h : (goSplit s).map String.toList = s.toList.splitOn ',' := by
    rw [goSplit, List.map_map]
    have : String.toList ∘ List.asString = id := by
      funext l
      exact List.toList_asString l
    rw [this, List.map_id]
  rw [h, List.intercalate_splitOn]

theorem goSplit_length (s : String) :
    (goSplit s).length = s.toList.count ',' + 1 := by
  rw [goSplit, List.length_map]
  exact splitOnP_length_countP (· == ',') s.toList

theorem goSplit_no_comma (s : String) : ∀ t ∈ goSplit s, ',' ∉ t.toList := by
  intro t ht hc
  rw [goSplit] at ht
  rcases List.mem_map.mp ht with ⟨l, hl, rfl⟩
  rw [List.toList_asString] at hc
  have := splitOnP_no_sep (· == ',') s.toList l hl ',' hc
  simp at this

theorem goSplit_ne_nil (s : String) : goSplit s ≠ [] := by
  rw [goSplit]
  intro h
  exact List.splitOnP_ne_nil _ s.toList (List.map_eq_nil_iff.mp h)

theorem goSplit_empty : goSplit "" = [""] := by decide

/-! ### Call classification: which workflow a call belongs to -/

theorem authStep_class (env : Env) : ∀ c ∈ (authStep env).1, classOf c = 2 := by
  unfold authStep
  rcases env.authenticate with e | u <;> simp [classOf]

theorem termsStep_class (flags : Flags) (env : Env) :
    ∀ c ∈ (termsStep flags env).1, classOf c = 3 := by
  unfold termsStep
  by_cases h : flags.printTerms <;> simp [h]
  rcases env.getTerms with e | ⟨v, ct⟩ <;> simp [classOf]

theorem statusStep_class (flags : Flags) (env : Env) :
    ∀ c ∈ (statusStep flags env).1, classOf c = 4 := by
  unfold statusStep
  by_cases h : flags.status <;> simp [h]
  rcases env.getTLDStatus with e | l <;> simp [classOf]

theorem requestStep_class (flags : Flags) (env : Env) :
    ∀ c ∈ (requestStep flags env).1, classOf c = 5 := by
  intro c hc
  unfold requestStep at hc
  split at hc
  · split at hc
    · simp at hc
    · split at hc
      · rcases h2 : env.requestAllTLDsExcept flags.reason (goSplit flags.exclude) with e | l <;>
          simp [h2] at hc <;> (subst hc; rfl)
      · rcases h2 : env.requestTLDs (goSplit flags.requestTLDs) flags.reason with e | u <;>
          simp [h2] at hc <;> (subst hc; rfl)
  · simp at hc

theorem extendLoop_class (env : Env) (l : List String) :
    ∀ c ∈ (extendLoop env l).1, classOf c = 6 := by
  induction l with
  | nil => simp [extendLoop]
  | cons t rest ih =>
    unfold extendLoop
    rcases h : env.extendTLD t with e | u
    · simp [classOf]
    · simp only []
      intro c hc
      rcases List.mem_cons.mp hc with h' | h'
      · subst h'; rfl
      · exact ih c h'

theorem extendStep_class (flags : Flags) (env : Env) :
    ∀ c ∈ (extendStep flags env).1, classOf c = 6 := by
  intro c hc
  unfold extendStep at hc
  split at hc
  · split at hc
    · rcases h2 : env.extendAllTLDsExcept (goSplit flags.exclude) with e | l <;>
        simp [h2] at hc <;> (subst hc; rfl)
    · rcases h2 : extendLoop env (goSplit flags.extendTLDs) with ⟨calls, r⟩
      have hcl := extendLoop_class env (goSplit flags.extendTLDs)
      rw [h2] at hcl
      rcases r with _ | e <;> simp [h2] at hc <;> exact hcl c hc
  · simp at hc

theorem cancelRequestFn_class (env : Env) (z : String) :
    ∀ c ∈ (cancelRequestFn env z).1, classOf c = 7 := by
  unfold cancelRequestFn
  rcases h1 : env.getZoneRequestID z with e | zid
  · simp [h1, classOf]
  · rcases h2 : env.cancelRequest zid z with e | u <;> simp [h1, h2, classOf]

theorem cancelLoop_class (env : Env) (l : List String) :
    ∀ c ∈ (cancelLoop env l).1, classOf c = 7 := by
  induction l with
  | nil => simp [cancelLoop]
  | cons t rest ih =>
    unfold cancelLoop
    rcases h : cancelRequestFn env t with ⟨calls, r⟩
    have hc := cancelRequestFn_class env t
    rw [h] at hc
    rcases r with _ | e
    · simp only []
      intro c hmem
      rcases List.mem_append.mp hmem with h' | h'
      · exact hc c h'
      · exact ih c h'
    · simpa using hc

theorem cancelStep_class (flags : Flags) (env : Env) :
    ∀ c ∈ (cancelStep flags env).1, classOf c = 7 := by
  intro c hc
  unfold cancelStep at hc
  split at hc
  · rcases h2 : cancelLoop env (goSplit flags.cancelTLDs) with ⟨calls, r⟩
    have hcl := cancelLoop_class env (goSplit flags.cancelTLDs)
    rw [h2] at hcl
    rcases r with _ | e <;> simp [h2] at hc <;> exact hcl c hc
  · simp at hc

/-! ### Generic facts about `runSteps` -/

theorem runSteps_cons_none (c : List Call) (o : List Output)
    (rest : List StepResult) (tr : List Call) (outp : List Output) :
    runSteps tr outp ((c, o, none) :: rest) = runSteps (tr ++ c) (outp ++ o) rest := rfl

theorem runSteps_cons_some (c : List Call) (o : List Output) (e : String)
    (rest : List StepResult) (tr : List Call) (outp : List Output) :
    runSteps tr outp ((c, o, some e) :: rest) =
      ⟨tr ++ c, outp ++ o, RunResult.fatal e⟩ := rfl

theorem runSteps_pred (P : Call → Prop) :
    ∀ (steps : List StepResult) (tr : List Call) (outp : List Output),
      TracePred P steps → (∀ c ∈ tr, P c) →
      ∀ c ∈ (runSteps tr outp steps).trace, P c := by
  intro steps
  induction steps with
  | nil => intro tr outp _ htr c hc; exact htr c hc
  | cons s rest ih =>
    rcases s with ⟨calls, o, r⟩
    intro tr outp hsteps htr c hc
    rcases hsteps with ⟨hcalls, hrest⟩
    rcases r with _ | e
    · exact ih (tr ++ calls) (outp ++ o) (hrest rfl)
        (fun x hx => (List.mem_append.mp hx).elim (htr x) (hcalls x)) c hc
    · simp only [runSteps] at hc
      exact (List.mem_append.mp hc).elim (htr c) (hcalls c)

theorem runSteps_not_finished :
    ∀ (steps : List StepResult) (tr : List Call) (outp : List Output),
      (∃ s ∈ steps, s.2.2 ≠ none) →
      (runSteps tr outp steps).result ≠ RunResult.finished := by
  intro steps
  induction steps with
  | nil => intro tr outp h; rcases h with ⟨s, hs, _⟩; exact absurd hs (List.not_mem_nil s)
  | cons s rest ih =>
    rcases s with ⟨calls, o, r⟩
    intro tr outp h
    rcases r with _ | e
    · refine ih (tr ++ calls) (outp ++ o) ?_
      rcases h with ⟨s', hs', hne⟩
      rcases List.mem_cons.mp hs' with h' | h'
      · subst h'; exact absurd rfl hne
      · exact ⟨s', h', hne⟩
    · simp [runSteps]

theorem runSteps_mem_tr :
    ∀ (steps : List StepResult) (tr : List Call) (outp : List Output) (c : Call),
      c ∈ tr → c ∈ (runSteps tr outp steps).trace := by
  intro steps
  induction steps with
  | nil => intro tr outp c hc; exact hc
  | cons s rest ih =>
    rcases s with ⟨calls, o, r⟩
    intro tr outp c hc
    rcases r with _ | e
    · exact ih (tr ++ calls) (outp ++ o) c (List.mem_append_left calls hc)
    · exact List.mem_append_left calls hc

/-- Running a step list whose steps all succeed concatenates their calls
and outputs and finishes normally. -/
theorem runSteps_all_ok :
    ∀ (steps : List StepResult) (tr : List Call) (outp : List Output),
      (∀ s ∈ steps, s.2.2 = none) →
      runSteps tr outp steps =
        ⟨tr ++ (steps.map (fun s => s.1)).flatten,
         outp ++ (steps.map (fun s => s.2.1)).flatten, RunResult.finished⟩ := by
  intro steps
  induction steps with
  | nil => intro tr outp _; simp [runSteps]
  | cons s rest ih =>
    rcases s with ⟨calls, o, r⟩
    intro tr outp h
    have hr : r = none := h (calls, o, r) (List.mem_cons_self _ _)
    subst hr
    rw [runSteps, ih (tr ++ calls) (outp ++ o) (fun s hs => h s (List.mem_cons_of_mem _ hs))]
    simp

/-- Running a step list that fails first at the given step runs the
successful prefix and the failing step, then stops fatally. -/
theorem runSteps_stop :
    ∀ (pre : List StepResult) (c : List Call) (o : List Output) (e : String)
      (post : List StepResult) (tr : List Call) (outp : List Output),
      (∀ s ∈ pre, s.2.2 = none) →
      runSteps tr outp (pre ++ (c, o, some e) :: post) =
        ⟨tr ++ (pre.map (fun s => s.1)).flatten ++ c,
         outp ++ (pre.map (fun s => s.2.1)).flatten ++ o, RunResult.fatal e⟩ := by
  intro pre
  induction pre with
  | nil => intro c o e post tr outp _; simp [runSteps]
  | cons s rest ih =>
    rcases s with ⟨calls, o', r⟩
    intro c o e post tr outp h
    have hr : r = none := h (calls, o', r) (List.mem_cons_self _ _)
    subst hr
    rw [List.cons_append, runSteps,
      ih c o e post (tr ++ calls) (outp ++ o') (fun s hs => h s (List.mem_cons_of_mem _ hs))]
    simp

theorem pairwise_class_of_uniform {l : List Call} {m : Nat}
    (h : ∀ x ∈ l, classOf x = m) :
    List.Pairwise (fun a b => classOf a ≤ classOf b) l :=
  List.pairwise_of_forall_mem_list (fun a ha b hb => by rw [h a ha, h b hb])

theorem runSteps_sorted :
    ∀ (steps : List StepResult) (n : Nat) (tr : List Call) (outp : List Output),
      List.Pairwise (fun a b => classOf a ≤ classOf b) tr →
      (∀ c ∈ tr, classOf c ≤ n) →
      StepsAscending n steps →
      List.Pairwise (fun a b => classOf a ≤ classOf b) (runSteps tr outp steps).trace := by
  intro steps
  induction steps with
  | nil => intro n tr outp htr _ _; exact htr
  | cons s rest ih =>
    rcases s with ⟨calls, o, r⟩
    intro n tr outp htr hbound hasc
    rcases hasc with ⟨m, hnm, hcalls, hrest⟩
    have hsorted : List.Pairwise (fun a b => classOf a ≤ classOf b) (tr ++ calls) :=
      List.pairwise_append.mpr ⟨htr, pairwise_class_of_uniform hcalls,
        fun a ha b hb =>
          le_trans (le_trans (hbound a ha) hnm) (le_of_eq (hcalls b hb).symm)⟩
    rcases r with _ | e
    · refine ih m (tr ++ calls) (outp ++ o) hsorted ?_ hrest
      intro c hc
      rcases List.mem_append.mp hc with h' | h'
      · exact le_trans (hbound c h') hnm
      · exact le_of_eq (hcalls c h')
    · exact hsorted

/-! ### Characterisation of the explicit extend and cancel loops -/

theorem extendLoop_ok_append (env : Env) (good : List String)
    (hg : ∀ t ∈ good, env.extendTLD t = Except.ok ()) (l : List String) :
    extendLoop env (good ++ l) =
      (good.map Call.extendTLD ++ (extendLoop env l).1, (extendLoop env l).2) := by
  induction good with
  | nil => simp
  | cons t rest ih =>
    have ht : env.extendTLD t = Except.ok () := hg t (List.mem_cons_self _ _)
    rw [List.cons_append, extendLoop, ht]
    rw [ih (fun x hx => hg x (List.mem_cons_of_mem _ hx))]
    simp

theorem extendLoop_all_ok (env : Env) (l : List String)
    (hg : ∀ t ∈ l, env.extendTLD t = Except.ok ()) :
    extendLoop env l = (l.map Call.extendTLD, none) := by
  have := extendLoop_ok_append env l hg []
  simpa [extendLoop] using this

theorem extendLoop_stops (env : Env) (good : List String) (bad : String)
    (rest : List String) (e : String)
    (hg : ∀ t ∈ good, env.extendTLD t = Except.ok ())
    (hb : env.extendTLD bad = Except.error e) :
    extendLoop env (good ++ bad :: rest) =
      (good.map Call.extendTLD ++ [Call.extendTLD bad], some e) := by
  rw [extendLoop_ok_append env good hg (bad :: rest), extendLoop, hb]

theorem cancelRequestFn_ok (env : Env) (idOf : String → String) (z : String)
    (h1 : env.getZoneRequestID z = Except.ok (idOf z))
    (h2 : env.cancelRequest (idOf z) z = Except.ok ()) :
    cancelRequestFn env z = (cancelCallsFor idOf z, none) := by
  simp [cancelRequestFn, h1, h2, cancelCallsFor]

theorem cancelLoop_ok_append (env : Env) (idOf : String → String)
    (good : List String)
    (hg : ∀ z ∈ good, env.getZoneRequestID z = Except.ok (idOf z) ∧
      env.cancelRequest (idOf z) z = Except.ok ()) (l : List String) :
    cancelLoop env (good ++ l) =
      ((good.map (cancelCallsFor idOf)).flatten ++ (cancelLoop env l).1,
       (cancelLoop env l).2) := by
  induction good with
  | nil => simp
  | cons z rest ih =>
    have hz := hg z (List.mem_cons_self _ _)
    rw [List.cons_append, cancelLoop, cancelRequestFn_ok env idOf z hz.1 hz.2]
    rw [ih (fun x hx => hg x (List.mem_cons_of_mem _ hx))]
    simp

theorem cancelLoop_all_ok (env : Env) (idOf : String → String) (l : List String)
    (hg : ∀ z ∈ l, env.getZoneRequestID z = Except.ok (idOf z) ∧
      env.cancelRequest (idOf z) z = Except.ok ()) :
    cancelLoop env l = ((l.map (cancelCallsFor idOf)).flatten, none) := by
  have := cancelLoop_ok_append env idOf l hg []
  simpa [cancelLoop] using this

theorem cancelLoop_stops_lookup (env : Env) (idOf : String → String)
    (good : List String) (x : String) (rest : List String) (e : String)
    (hg : ∀ z ∈ good, env.getZoneRequestID z = Except.ok (idOf z) ∧
      env.cancelRequest (idOf z) z = Except.ok ())
    (hx : env.getZoneRequestID x = Except.error e) :
    cancelLoop env (good ++ x :: rest) =
      ((good.map (cancelCallsFor idOf)).flatten ++ [Call.getZoneRequestID x],
       some e) := by
  rw [cancelLoop_ok_append env idOf good hg (x :: rest)]
  simp [cancelLoop, cancelRequestFn, hx]

/-! ### Reductions of the individual steps under explicit flag/stub facts -/

theorem authStep_ok (env : Env) (h : env.authenticate = Except.ok ()) :
    authStep env = ([Call.authenticate], [], none) := by
  simp [authStep, h]

theorem authStep_err (env : Env) (e : String) (h : env.authenticate = Except.error e) :
    authStep env = ([Call.authenticate], [], some e) := by
  simp [authStep, h]

theorem termsStep_off (flags : Flags) (env : Env) (h : flags.printTerms = false) :
    termsStep flags env = ([], [], none) := by
  simp [termsStep, h]

theorem statusStep_off (flags : Flags) (env : Env) (h : flags.status = false) :
    statusStep flags env = ([], [], none) := by
  simp [statusStep, h]

theorem requestStep_off (flags : Flags) (env : Env)
    (h1 : flags.requestAll = false) (h2 : flags.requestTLDs = "") :
    requestStep flags env = ([], [], none) := by
  simp [requestStep, h1, h2]

theorem requestStep_no_reason (flags : Flags) (env : Env)
    (h : flags.requestAll = true ∨ flags.requestTLDs ≠ "")
    (hr : flags.reason = "") :
    requestStep flags env = ([], [], some "Must pass a reason to request TLDs") := by
  rcases h with h | h <;> simp [requestStep, h, hr]

theorem requestStep_explicit_ok (flags : Flags) (env : Env)
    (h1 : flags.requestAll = false) (h2 : flags.requestTLDs ≠ "")
    (hr : flags.reason ≠ "")
    (henv : env.requestTLDs (goSplit flags.requestTLDs) flags.reason = Except.ok ()) :
    requestStep flags env =
      ([Call.requestTLDs (goSplit flags.requestTLDs) flags.reason],
       [Output.requested (goSplit flags.requestTLDs)], none) := by
  simp [requestStep, h1, h2, hr, henv, goSplit_ne_nil]

theorem requestStep_explicit_err (flags : Flags) (env : Env) (e : String)
    (h1 : flags.requestAll = false) (h2 : flags.requestTLDs ≠ "")
    (hr : flags.reason ≠ "")
    (henv : env.requestTLDs (goSplit flags.requestTLDs) flags.reason = Except.error e) :
    requestStep flags env =
      ([Call.requestTLDs (goSplit flags.requestTLDs) flags.reason], [], some e) := by
  simp [requestStep, h1, h2, hr, henv]

theorem requestStep_bulk_ok (flags : Flags) (env : Env) (l : List String)
    (h1 : flags.requestAll = true) (hr : flags.reason ≠ "")
    (henv : env.requestAllTLDsExcept flags.reason (goSplit flags.exclude) = Except.ok l) :
    requestStep flags env =
      ([Call.requestAllTLDsExcept flags.reason (goSplit flags.exclude)],
       if l ≠ [] then [Output.requested l] else [], none) := by
  simp [requestStep, h1, hr, henv]

theorem requestStep_bulk_err (flags : Flags) (env : Env) (e : String)
    (h1 : flags.requestAll = true) (hr : flags.reason ≠ "")
    (henv : env.requestAllTLDsExcept flags.reason (goSplit flags.exclude) =
      Except.error e) :
    requestStep flags env =
      ([Call.requestAllTLDsExcept flags.reason (goSplit flags.exclude)], [], some e) := by
  simp [requestStep, h1, hr, henv]

theorem extendStep_bulk_ok (flags : Flags) (env : Env) (l : List String)
    (h1 : flags.extendAll = true)
    (henv : env.extendAllTLDsExcept (goSplit flags.exclude) = Except.ok l) :
    extendStep flags env =
      ([Call.extendAllTLDsExcept (goSplit flags.exclude)],
       if l ≠ [] then [Output.extended l] else [], none) := by
  simp [extendStep, h1, henv]

theorem extendStep_bulk_err (flags : Flags) (env : Env) (e : String)
    (h1 : flags.extendAll = true)
    (henv : env.extendAllTLDsExcept (goSplit flags.exclude) = Except.error e) :
    extendStep flags env =
      ([Call.extendAllTLDsExcept (goSplit flags.exclude)], [], some e) := by
  simp [extendStep, h1, henv]

theorem extendStep_off (flags : Flags) (env : Env)
    (h1 : flags.extendAll = false) (h2 : flags.extendTLDs = "") :
    extendStep flags env = ([], [], none) := by
  simp [extendStep, h1, h2]

theorem extendStep_explicit_ok (flags : Flags) (env : Env)
    (h1 : flags.extendAll = false) (h2 : flags.extendTLDs ≠ "")
    (henv : ∀ t ∈ goSplit flags.extendTLDs, env.extendTLD t = Except.ok ()) :
    extendStep flags env =
      ((goSplit flags.extendTLDs).map Call.extendTLD,
       [Output.extended (goSplit flags.extendTLDs)], none) := by
  simp [extendStep, h1, h2, extendLoop_all_ok env _ henv, goSplit_ne_nil]

theorem extendStep_explicit_err (flags : Flags) (env : Env)
    (good : List String) (bad : String) (rest : List String) (e : String)
    (h1 : flags.extendAll = false) (h2 : flags.extendTLDs ≠ "")
    (hsplit : goSplit flags.extendTLDs = good ++ bad :: rest)
    (hg : ∀ t ∈ good, env.extendTLD t = Except.ok ())
    (hb : env.extendTLD bad = Except.error e) :
    extendStep flags env =
      (good.map Call.extendTLD ++ [Call.extendTLD bad], [], some e) := by
  simp [extendStep, h1, h2, hsplit, extendLoop_stops env good bad rest e hg hb]

theorem cancelStep_off (flags : Flags) (env : Env) (h : flags.extendTLDs = "") :
    cancelStep flags env = ([], [], none) := by
  simp [cancelStep, h]

theorem cancelStep_ok (flags : Flags) (env : Env) (idOf : String → String)
    (h : flags.extendTLDs ≠ "")
    (hg : ∀ z ∈ goSplit flags.cancelTLDs,
      env.getZoneRequestID z = Except.ok (idOf z) ∧
      env.cancelRequest (idOf z) z = Except.ok ()) :
    cancelStep flags env =
      (((goSplit flags.cancelTLDs).map (cancelCallsFor idOf)).flatten,
       [Output.canceled (goSplit flags.cancelTLDs)], none) := by
  simp [cancelStep, h, cancelLoop_all_ok env idOf _ hg, goSplit_ne_nil]

theorem cancelStep_stops_lookup (flags : Flags) (env : Env)
    (idOf : String → String) (good : List String) (x : String)
    (rest : List String) (e : String)
    (h : flags.extendTLDs ≠ "")
    (hsplit : goSplit flags.cancelTLDs = good ++ x :: rest)
    (hg : ∀ z ∈ good, env.getZoneRequestID z = Except.ok (idOf z) ∧
      env.cancelRequest (idOf z) z = Except.ok ())
    (hx : env.getZoneRequestID x = Except.error e) :
    cancelStep flags env =
      ((good.map (cancelCallsFor idOf)).flatten ++ [Call.getZoneRequestID x],
       [], some e) := by
  simp [cancelStep, h, hsplit, cancelLoop_stops_lookup env idOf good x rest e hg hx]

/-! ### Reductions of `runMain` -/

theorem runMain_pw (flags : Flags) (env : Env) (h : flags.password ≠ "") :
    runMain flags env = runAfterPassword flags env flags.password [] := by
  rw [runMain, if_neg h]

theorem runMain_getpass_err (flags : Flags) (env : Env) (e : String)
    (h0 : flags.password = "") (he : env.getpass flags.passin = Except.error e) :
    runMain flags env =
      ⟨[Call.getpass flags.passin], [],
       RunResult.fatal ("Unable to get password from user: " ++ e)⟩ := by
  rw [runMain, if_pos h0]
  simp [he]

theorem runMain_getpass_ok (flags : Flags) (env : Env) (p : String)
    (h0 : flags.password = "") (he : env.getpass flags.passin = Except.ok p) :
    runMain flags env =
      runAfterPassword flags env p [Call.getpass flags.passin] := by
  rw [runMain, if_pos h0]
  simp [he]

theorem runAfterPassword_run (flags : Flags) (env : Env) (p : String)
    (tr : List Call)
    (h : flags.printTerms = true ∨ flags.status = true ∨ flags.requestAll = true ∨
      flags.requestTLDs ≠ "" ∨ flags.extendAll = true ∨ flags.extendTLDs ≠ "") :
    runAfterPassword flags env p tr =
      runSteps (tr ++ [Call.newClient flags.username p]) []
        [authStep env, termsStep flags env, statusStep flags env,
         requestStep flags env, extendStep flags env, cancelStep flags env] := by
  rcases h with h | h | h | h | h | h <;> simp [runAfterPassword, h]

theorem runAfterPassword_nothing (flags : Flags) (env : Env) (p : String)
    (tr : List Call)
    (h1 : flags.printTerms = false) (h2 : flags.status = false)
    (h3 : flags.requestAll = false) (h4 : flags.requestTLDs = "")
    (h5 : flags.extendAll = false) (h6 : flags.extendTLDs = "") :
    runAfterPassword flags env p tr = ⟨tr, [], RunResult.fatal "Nothing to do!"⟩ := by
  simp [runAfterPassword, h1, h2, h3, h4, h5, h6]

/-! ### Behaviour of the body after the password, under various failures -/

theorem runAfterPassword_auth_fail (flags : Flags) (env : Env) (p : String)
    (tr : List Call) (e : String)
    (htr : ∀ c ∈ tr, classOf c ≤ 2)
    (hauth : env.authenticate = Except.error e) :
    (∀ c ∈ (runAfterPassword flags env p tr).trace, classOf c ≤ 2) ∧
    (runAfterPassword flags env p tr).result ≠ RunResult.finished := by
  rw [runAfterPassword]
  split
  · exact ⟨htr, by simp⟩
  · rw [authStep_err env e hauth]
    constructor
    · refine runSteps_pred _ _ _ _ ?_ ?_
      · exact ⟨by simp [classOf], fun habs => nomatch habs⟩
      · intro c hc
        rcases List.mem_append.mp hc with h' | h'
        · exact htr c h'
        · simp at h'
          subst h'
          simp [classOf]
    · apply runSteps_not_finished
      exact ⟨([Call.authenticate], [], some e), by simp, by simp⟩

theorem runAfterPassword_no_reason (flags : Flags) (env : Env) (p : String)
    (tr : List Call)
    (htr : ∀ c ∈ tr, classOf c ≤ 4)
    (hdo : flags.requestAll = true ∨ flags.requestTLDs ≠ "")
    (hr : flags.reason = "") :
    (∀ c ∈ (runAfterPassword flags env p tr).trace, classOf c ≤ 4) ∧
    (runAfterPassword flags env p tr).result ≠ RunResult.finished := by
  rw [runAfterPassword]
  split
  · exact ⟨htr, by simp⟩
  · rw [requestStep_no_reason flags env hdo hr]
    constructor
    · refine runSteps_pred _ _ _ _ ?_ ?_
      · refine ⟨fun x hx => le_trans (le_of_eq (authStep_class env x hx)) (by omega),
          fun _ => ?_⟩
        refine ⟨fun x hx => le_trans (le_of_eq (termsStep_class flags env x hx)) (by omega),
          fun _ => ?_⟩
        refine ⟨fun x hx => le_of_eq (statusStep_class flags env x hx), fun _ => ?_⟩
        exact ⟨by simp, fun habs => nomatch habs⟩
      · intro c hc
        rcases List.mem_append.mp hc with h' | h'
        · exact htr c h'
        · simp at h'
          subst h'
          simp [classOf]
    · apply runSteps_not_finished
      exact ⟨([], [], some "Must pass a reason to request TLDs"), by simp, by simp⟩

theorem runAfterPassword_sorted (flags : Flags) (env : Env) (p : String)
    (tr : List Call)
    (htr : List.Pairwise (fun a b => classOf a ≤ classOf b) tr)
    (hb : ∀ c ∈ tr, classOf c ≤ 1) :
    List.Pairwise (fun a b => classOf a ≤ classOf b)
      (runAfterPassword flags env p tr).trace := by
  rw [runAfterPassword]
  split
  · exact htr
  · refine runSteps_sorted _ 1 _ _ ?_ ?_ ?_
    · refine List.pairwise_append.mpr ⟨htr, List.pairwise_singleton _ _, ?_⟩
      intro a ha b hb'
      simp at hb'
      subst hb'
      exact le_trans (hb a ha) (by simp [classOf])
    · intro c hc
      rcases List.mem_append.mp hc with h' | h'
      · exact hb c h'
      · simp at h'
        subst h'
        simp [classOf]
    · exact ⟨2, by omega, authStep_class env,
        3, by omega, termsStep_class flags env,
        4, by omega, statusStep_class flags env,
        5, by omega, requestStep_class flags env,
        6, by omega, extendStep_class flags env,
        7, by omega, cancelStep_class flags env, trivial⟩

theorem runAfterPassword_calls (flags : Flags) (env : Env) (p : String)
    (tr : List Call) :
    ∀ c ∈ (runAfterPassword flags env p tr).trace, c ∈ tr ∨ 1 ≤ classOf c := by
  rw [runAfterPassword]
  split
  · intro c hc
    exact Or.inl hc
  · refine runSteps_pred _ _ _ _ ?_ ?_
    · refine ⟨fun x hx => Or.inr ?_, fun _ => ?_⟩
      · rw [authStep_class env x hx]; omega
      refine ⟨fun x hx => Or.inr ?_, fun _ => ?_⟩
      · rw [termsStep_class flags env x hx]; omega
      refine ⟨fun x hx => Or.inr ?_, fun _ => ?_⟩
      · rw [statusStep_class flags env x hx]; omega
      refine ⟨fun x hx => Or.inr ?_, fun _ => ?_⟩
      · rw [requestStep_class flags env x hx]; omega
      refine ⟨fun x hx => Or.inr ?_, fun _ => ?_⟩
      · rw [extendStep_class flags env x hx]; omega
      exact ⟨fun x hx => Or.inr (by rw [cancelStep_class flags env x hx]; omega),
        fun _ => trivial⟩
    · intro c hc
      rcases List.mem_append.mp hc with h' | h'
      · exact Or.inl h'
      · simp at h'
        subst h'
        exact Or.inr (by simp [classOf])

/-! ### The claims -/

/-- C1: the claim says the cancel workflow runs if and only if a non-empty
cancel list was supplied, independently of the extend list. The code
(request.go line 77) instead gates cancel on the extend list: with only
`-cancel x` supplied the program dies with "Nothing to do!" and issues no
call at all, and with only `-extend a` supplied the cancel workflow runs,
iterating the split of the empty cancel list (the single zone `""`). -/
theorem cancel_gated_by_extend_list :
    (runMain flagsOnlyCancel okEnv).result = RunResult.fatal "Nothing to do!" ∧
    (runMain flagsOnlyCancel okEnv).trace = [] ∧
    Call.getZoneRequestID "" ∈ (runMain flagsExtendOnly okEnv).trace := by
  refine ⟨?_, ?_, ?_⟩ <;> decide

/-- C2, counterexample to the claim as stated: for extend list `a,b,c`
with the remote call failing on `b`, only `a` and `b` are attempted and
the run is fatal, but no "Extended" report is printed at all — the output
is empty, not the full list `[a, b, c]`, because `log.Fatal` fires before
the report line. -/
theorem extend_explicit_full_report_refuted :
    (runMain flagsExtendAbc envFailB).trace =
      [Call.newClient "u" "p", Call.authenticate,
       Call.extendTLD "a", Call.extendTLD "b"] ∧
    (runMain flagsExtendAbc envFailB).output = [] ∧
    (runMain flagsExtendAbc envFailB).result = RunResult.fatal "boom" := by
  refine ⟨?_, ?_, ?_⟩ <;> decide

/-- C2, amended: the explicit extend workflow invokes the per-zone remote
call sequentially in list order and stops at the first failure (zones
after the failing one are never attempted); on such a failure the process
terminates fatally with that error and prints no extended report (the code
assigns the full literal input list as the extended set, but the report
line is only reached when every zone succeeded). -/
theorem extend_explicit_stops_without_report (flags : Flags) (env : Env)
    (good : List String) (bad : String) (rest : List String) (e : String)
    (hpw : flags.password ≠ "") (ht : flags.printTerms = false)
    (hs : flags.status = false) (hra : flags.requestAll = false)
    (hrt : flags.requestTLDs = "") (hea : flags.extendAll = false)
    (het : flags.extendTLDs ≠ "")
    (hauth : env.authenticate = Except.ok ())
    (hsplit : goSplit flags.extendTLDs = good ++ bad :: rest)
    (hg : ∀ t ∈ good, env.extendTLD t = Except.ok ())
    (hb : env.extendTLD bad = Except.error e) :
    runMain flags env =
      ⟨[Call.newClient flags.username flags.password, Call.authenticate]
        ++ good.map Call.extendTLD ++ [Call.extendTLD bad],
       [], RunResult.fatal e⟩ := by
  rw [runMain_pw flags env hpw,
    runAfterPassword_run flags env flags.password []
      (Or.inr (Or.inr (Or.inr (Or.inr (Or.inr het))))),
    authStep_ok env hauth, termsStep_off flags env ht, statusStep_off flags env hs,
    requestStep_off flags env hra hrt,
    extendStep_explicit_err flags env good bad rest e hea het hsplit hg hb]
  have h := runSteps_stop
    [([Call.authenticate], [], none), ([], [], none), ([], [], none), ([], [], none)]
    (good.map Call.extendTLD ++ [Call.extendTLD bad]) [] e
    [cancelStep flags env]
    ([] ++ [Call.newClient flags.username flags.password]) []
    (by intro s hs'; fin_cases hs' <;> rfl)
  simp only [List.cons_append, List.nil_append] at h ⊢
  rw [h]
  simp

/-- C2, witness: the amended theorem at extend list `a,b,c` with `b`
failing. -/
theorem extend_explicit_stops_without_report_witness :
    goSplit "a,b,c" = ["a"] ++ "b" :: ["c"] ∧
    runMain flagsExtendAbc envFailB =
      ⟨[Call.newClient "u" "p", Call.authenticate, Call.extendTLD "a",
        Call.extendTLD "b"], [], RunResult.fatal "boom"⟩ :=
  ⟨by decide,
   (extend_explicit_stops_without_report flagsExtendAbc envFailB ["a"] "b" ["c"] "boom"
      (by decide) rfl rfl rfl rfl rfl (by decide) rfl (by decide)
      (by intro t htm; fin_cases htm; rfl) rfl).trans
     (by decide)⟩

/-- C3, counterexample to the claim as stated: an invocation with a
request intent and an empty reason still invokes the remote
authentication call before failing, so a call-counting stub observes one
remote invocation, not zero. -/
theorem request_empty_reason_zero_calls_refuted :
    Call.authenticate ∈ (runMain flagsNoReason okEnv).trace ∧
    (runMain flagsNoReason okEnv).result =
      RunResult.fatal "Must pass a reason to request TLDs" := by
  refine ⟨?_, ?_⟩ <;> decide

/-- C3, amended: whenever a request intent (bulk or explicit) is given
with an empty reason, the invocation terminates abnormally and no
request, extend or cancel remote call is ever invoked (every issued call
has class at most 4, i.e. is the credential lookup, client construction,
authentication, terms or status); authentication — and terms/status calls
for co-requested intents — still occur. -/
theorem request_empty_reason_blocks (flags : Flags) (env : Env)
    (hdo : flags.requestAll = true ∨ flags.requestTLDs ≠ "")
    (hr : flags.reason = "") :
    (∀ c ∈ (runMain flags env).trace, classOf c ≤ 4) ∧
    (runMain flags env).result ≠ RunResult.finished := by
  by_cases hpw : flags.password = ""
  · rcases hgp : env.getpass flags.passin with e' | p
    · rw [runMain_getpass_err flags env e' hpw hgp]
      exact ⟨by intro c hc; simp at hc; subst hc; simp [classOf], by simp⟩
    · rw [runMain_getpass_ok flags env p hpw hgp]
      exact runAfterPassword_no_reason flags env p _
        (by intro c hc; simp at hc; subst hc; simp [classOf]) hdo hr
  · rw [runMain_pw flags env hpw]
    exact runAfterPassword_no_reason flags env flags.password [] (by simp) hdo hr

/-- C3, witness: the amended theorem at the explicit request list `a`
with an empty reason, instantiated at the authentication call. -/
theorem request_empty_reason_blocks_witness :
    (runMain flagsNoReason okEnv).result ≠ RunResult.finished ∧
    classOf Call.authenticate ≤ 4 :=
  ⟨(request_empty_reason_blocks flagsNoReason okEnv (Or.inr (by decide)) rfl).2,
   (request_empty_reason_blocks flagsNoReason okEnv (Or.inr (by decide)) rfl).1
     Call.authenticate (by decide)⟩

/-- C4: for a cancel list split as `good ++ x :: rest` where every zone
in `good` cancels cleanly and the request-ID lookup for `x` fails, the
run performs lookup+cancel for each `good` zone in order, then only the
lookup for `x`; the cancel call for `x` is never invoked, no zone of
`rest` is attempted, and the process terminates fatally with the lookup
error. -/
theorem cancel_lookup_failure_stops (flags : Flags) (env : Env)
    (idOf : String → String) (good : List String) (x : String)
    (rest : List String) (e : String)
    (hpw : flags.password ≠ "") (ht : flags.printTerms = false)
    (hs : flags.status = false) (hra : flags.requestAll = false)
    (hrt : flags.requestTLDs = "") (hea : flags.extendAll = false)
    (het : flags.extendTLDs ≠ "")
    (hauth : env.authenticate = Except.ok ())
    (hext : ∀ t ∈ goSplit flags.extendTLDs, env.extendTLD t = Except.ok ())
    (hsplit : goSplit flags.cancelTLDs = good ++ x :: rest)
    (hg : ∀ z ∈ good, env.getZoneRequestID z = Except.ok (idOf z) ∧
      env.cancelRequest (idOf z) z = Except.ok ())
    (hx : env.getZoneRequestID x = Except.error e)
    (hxg : x ∉ good) :
    runMain flags env =
      ⟨[Call.newClient flags.username flags.password, Call.authenticate]
        ++ (goSplit flags.extendTLDs).map Call.extendTLD
        ++ (good.map (cancelCallsFor idOf)).flatten
        ++ [Call.getZoneRequestID x],
       [Output.extended (goSplit flags.extendTLDs)], RunResult.fatal e⟩ ∧
    (∀ i, Call.cancelRequest i x ∉ (runMain flags env).trace) ∧
    (∀ z ∈ rest, z ∉ good → z ≠ x →
      Call.getZoneRequestID z ∉ (runMain flags env).trace) := by
  have hmain : runMain flags env =
      ⟨[Call.newClient flags.username flags.password, Call.authenticate]
        ++ (goSplit flags.extendTLDs).map Call.extendTLD
        ++ (good.map (cancelCallsFor idOf)).flatten
        ++ [Call.getZoneRequestID x],
       [Output.extended (goSplit flags.extendTLDs)], RunResult.fatal e⟩ := by
    rw [runMain_pw flags env hpw,
      runAfterPassword_run flags env flags.password []
        (Or.inr (Or.inr (Or.inr (Or.inr (Or.inr het))))),
      authStep_ok env hauth, termsStep_off flags env ht, statusStep_off flags env hs,
      requestStep_off flags env hra hrt,
      extendStep_explicit_ok flags env hea het hext,
      cancelStep_stops_lookup flags env idOf good x rest e het hsplit hg hx]
    have h := runSteps_stop
      [([Call.authenticate], [], none), ([], [], none), ([], [], none), ([], [], none),
       ((goSplit flags.extendTLDs).map Call.extendTLD,
        [Output.extended (goSplit flags.extendTLDs)], none)]
      ((good.map (cancelCallsFor idOf)).flatten ++ [Call.getZoneRequestID x]) [] e
      []
      ([] ++ [Call.newClient flags.username flags.password]) []
      (by intro s hs'; fin_cases hs' <;> rfl)
    simp only [List.cons_append, List.nil_append] at h ⊢
    rw [h]
    simp
  refine ⟨hmain, ?_, ?_⟩
  · intro i hmem
    rw [hmain] at hmem
    simp [cancelCallsFor] at hmem
    exact hxg hmem.1
  · intro z hz hzg hzx hmem
    rw [hmain] at hmem
    simp [cancelCallsFor] at hmem
    rcases hmem with h | h
    · exact hzg h
    · exact hzx h

/-- C4, witness: cancel list `w,x,y` with the lookup for `x` failing:
the run cancels `w`, looks up `x`, never cancels `x`, never touches `y`,
and dies with the lookup error. -/
theorem cancel_lookup_failure_stops_witness :
    runMain flagsCancelWxy envFailLookupX =
      ⟨[Call.newClient "u" "p", Call.authenticate, Call.extendTLD "e",
        Call.getZoneRequestID "w", Call.cancelRequest "id-w" "w",
        Call.getZoneRequestID "x"],
       [Output.extended ["e"]], RunResult.fatal "nope"⟩ ∧
    Call.cancelRequest "id-x" "x" ∉ (runMain flagsCancelWxy envFailLookupX).trace ∧
    Call.getZoneRequestID "y" ∉ (runMain flagsCancelWxy envFailLookupX).trace :=
  ⟨((cancel_lookup_failure_stops flagsCancelWxy envFailLookupX
      (fun z => "id-" ++ z) ["w"] "x" ["y"] "nope"
      (by decide) rfl rfl rfl rfl rfl (by decide) rfl
      (by intro t htm
          rw [show goSplit flagsCancelWxy.extendTLDs = ["e"] from by decide] at htm
          fin_cases htm
          rfl)
      (by decide)
      (by intro z hz
          fin_cases hz
          exact ⟨rfl, rfl⟩)
      rfl (by decide)).1).trans (by decide),
   (cancel_lookup_failure_stops flagsCancelWxy envFailLookupX
      (fun z => "id-" ++ z) ["w"] "x" ["y"] "nope"
      (by decide) rfl rfl rfl rfl rfl (by decide) rfl
      (by intro t htm
          rw [show goSplit flagsCancelWxy.extendTLDs = ["e"] from by decide] at htm
          fin_cases htm
          rfl)
      (by decide)
      (by intro z hz
          fin_cases hz
          exact ⟨rfl, rfl⟩)
      rfl (by decide)).2.1 "id-x",
   (cancel_lookup_failure_stops flagsCancelWxy envFailLookupX
      (fun z => "id-" ++ z) ["w"] "x" ["y"] "nope"
      (by decide) rfl rfl rfl rfl rfl (by decide) rfl
      (by intro t htm
          rw [show goSplit flagsCancelWxy.extendTLDs = ["e"] from by decide] at htm
          fin_cases htm
          rfl)
      (by decide)
      (by intro z hz
          fin_cases hz
          exact ⟨rfl, rfl⟩)
      rfl (by decide)).2.2 "y" (by decide) (by decide) (by decide)⟩

/-- C5: if the authentication call fails, no workflow ever issues a
remote call — every call in the trace has class at most 2 (credential
lookup, client construction, or the authentication call itself) — and the
invocation terminates abnormally, regardless of which intents were
requested. -/
theorem auth_failure_blocks_workflows (flags : Flags) (env : Env) (e : String)
    (hauth : env.authenticate = Except.error e) :
    (∀ c ∈ (runMain flags env).trace, classOf c ≤ 2) ∧
    (runMain flags env).result ≠ RunResult.finished := by
  by_cases hpw : flags.password = ""
  · rcases hgp : env.getpass flags.passin with e' | p
    · rw [runMain_getpass_err flags env e' hpw hgp]
      exact ⟨by intro c hc; simp at hc; subst hc; simp [classOf], by simp⟩
    · rw [runMain_getpass_ok flags env p hpw hgp]
      exact runAfterPassword_auth_fail flags env p _ e
        (by intro c hc; simp at hc; subst hc; simp [classOf]) hauth
  · rw [runMain_pw flags env hpw]
    exact runAfterPassword_auth_fail flags env flags.password [] e (by simp) hauth

/-- C5, witness: every intent enabled at once against a stub whose
authentication fails. -/
theorem auth_failure_blocks_workflows_witness :
    (runMain flagsAllIntents envAuthFail).result ≠ RunResult.finished ∧
    classOf Call.authenticate ≤ 2 :=
  ⟨(auth_failure_blocks_workflows flagsAllIntents envAuthFail "badauth" rfl).2,
   (auth_failure_blocks_workflows flagsAllIntents envAuthFail "badauth" rfl).1
     Call.authenticate (by decide)⟩

/-- C6: for every flag assignment and stub client, the trace of one
invocation is sorted by workflow class — credential lookup, client
construction, authentication, then terms, status, request, extend,
cancel — so workflows run one at a time in that fixed order, each
workflow's calls issued sequentially between its neighbours'. -/
theorem workflows_fixed_order (flags : Flags) (env : Env) :
    List.Pairwise (fun a b => classOf a ≤ classOf b) (runMain flags env).trace := by
  by_cases hpw : flags.password = ""
  · rcases hgp : env.getpass flags.passin with e' | p
    · rw [runMain_getpass_err flags env e' hpw hgp]
      simp
    · rw [runMain_getpass_ok flags env p hpw hgp]
      exact runAfterPassword_sorted flags env p _ (List.pairwise_singleton _ _)
        (by intro c hc; simp at hc; subst hc; simp [classOf])
  · rw [runMain_pw flags env hpw]
    exact runAfterPassword_sorted flags env flags.password [] (by simp) (by simp)

/-- C7: `goSplit` (the explicit zone-list resolution) splits only on the
comma — re-joining the tokens with commas restores the raw input, and no
token contains a comma — trims nothing, preserves order and token count
exactly (count of commas plus one, so duplicates and empty tokens pass
through, and the empty string yields `[""]`), and the split list is passed
verbatim to the explicit request remote call. -/
theorem resolve_explicit_verbatim :
    (∀ s : String,
      List.intercalate [','] ((goSplit s).map String.toList) = s.toList ∧
      (goSplit s).length = s.toList.count ',' + 1 ∧
      (∀ t ∈ goSplit s, ',' ∉ t.toList)) ∧
    goSplit "" = [""] ∧
    (∀ flags env, flags.password ≠ "" → flags.printTerms = false →
      flags.status = false → flags.requestAll = false → flags.requestTLDs ≠ "" →
      flags.reason ≠ "" → env.authenticate = Except.ok () →
      Call.requestTLDs (goSplit flags.requestTLDs) flags.reason ∈
        (runMain flags env).trace) := by
  refine ⟨fun s => ⟨goSplit_roundtrip s, goSplit_length s, goSplit_no_comma s⟩,
    goSplit_empty, ?_⟩
  intro flags env hpw ht hs hra hrt hr hauth
  rw [runMain_pw flags env hpw,
    runAfterPassword_run flags env flags.password []
      (Or.inr (Or.inr (Or.inr (Or.inl hrt)))),
    authStep_ok env hauth, termsStep_off flags env ht, statusStep_off flags env hs]
  rcases hreq : env.requestTLDs (goSplit flags.requestTLDs) flags.reason with e | u
  · rw [requestStep_explicit_err flags env e hra hrt hr hreq]
    have h := runSteps_stop
      [([Call.authenticate], [], none), ([], [], none), ([], [], none)]
      [Call.requestTLDs (goSplit flags.requestTLDs) flags.reason] [] e
      [extendStep flags env, cancelStep flags env]
      ([] ++ [Call.newClient flags.username flags.password]) []
      (by intro s hs'; fin_cases hs' <;> rfl)
    simp only [List.cons_append, List.nil_append] at h ⊢
    rw [h]
    simp
  · rw [requestStep_explicit_ok flags env hra hrt hr hreq]
    rw [runSteps_cons_none, runSteps_cons_none, runSteps_cons_none, runSteps_cons_none]
    apply runSteps_mem_tr
    simp

/-- C7, witness: the split of `a,,a` keeps the duplicate and the empty
token and is passed as-is to the request call. -/
theorem resolve_explicit_verbatim_witness :
    goSplit "a,,a" = ["a", "", "a"] ∧
    List.intercalate [','] ((goSplit "a,,a").map String.toList) = "a,,a".toList ∧
    (goSplit "a,,a").length = "a,,a".toList.count ',' + 1 ∧
    Call.requestTLDs ["a", "", "a"] "r" ∈ (runMain flagsReqDup okEnv).trace :=
  ⟨by decide,
   (resolve_explicit_verbatim.1 "a,,a").1,
   (resolve_explicit_verbatim.1 "a,,a").2.1,
   by have h := resolve_explicit_verbatim.2.2 flagsReqDup okEnv (by decide) rfl rfl rfl
        (by decide) (by decide) rfl
      rw [show goSplit flagsReqDup.requestTLDs = ["a", "", "a"] from by decide,
        show flagsReqDup.reason = "r" from rfl] at h
      exact h⟩

/-- C8: in explicit request mode exactly one remote call is made,
carrying the literal split list; on an aggregate error the invocation is
fatal (and nothing is reported), otherwise the reported requested set is
exactly that literal input list, independent of whatever the remote did
per zone. -/
theorem request_explicit_single_call (flags : Flags) (env : Env)
    (hpw : flags.password ≠ "") (ht : flags.printTerms = false)
    (hs : flags.status = false) (hra : flags.requestAll = false)
    (hrt : flags.requestTLDs ≠ "") (hr : flags.reason ≠ "")
    (hea : flags.extendAll = false) (het : flags.extendTLDs = "")
    (hauth : env.authenticate = Except.ok ()) :
    (∀ e, env.requestTLDs (goSplit flags.requestTLDs) flags.reason = Except.error e →
      runMain flags env =
        ⟨[Call.newClient flags.username flags.password, Call.authenticate,
          Call.requestTLDs (goSplit flags.requestTLDs) flags.reason],
         [], RunResult.fatal e⟩) ∧
    (env.requestTLDs (goSplit flags.requestTLDs) flags.reason = Except.ok () →
      runMain flags env =
        ⟨[Call.newClient flags.username flags.password, Call.authenticate,
          Call.requestTLDs (goSplit flags.requestTLDs) flags.reason],
         [Output.requested (goSplit flags.requestTLDs)], RunResult.finished⟩) := by
  constructor
  · intro e henv
    rw [runMain_pw flags env hpw,
      runAfterPassword_run flags env flags.password []
        (Or.inr (Or.inr (Or.inr (Or.inl hrt)))),
      authStep_ok env hauth, termsStep_off flags env ht, statusStep_off flags env hs,
      requestStep_explicit_err flags env e hra hrt hr henv]
    have h := runSteps_stop
      [([Call.authenticate], [], none), ([], [], none), ([], [], none)]
      [Call.requestTLDs (goSplit flags.requestTLDs) flags.reason] [] e
      [extendStep flags env, cancelStep flags env]
      ([] ++ [Call.newClient flags.username flags.password]) []
      (by intro s hs'; fin_cases hs' <;> rfl)
    simp only [List.cons_append, List.nil_append] at h ⊢
    rw [h]
    simp
  · intro henv
    rw [runMain_pw flags env hpw,
      runAfterPassword_run flags env flags.password []
        (Or.inr (Or.inr (Or.inr (Or.inl hrt)))),
      authStep_ok env hauth, termsStep_off flags env ht, statusStep_off flags env hs,
      requestStep_explicit_ok flags env hra hrt hr henv,
      extendStep_off flags env hea het, cancelStep_off flags env het]
    have h := runSteps_all_ok
      [([Call.authenticate], [], none), ([], [], none), ([], [], none),
       ([Call.requestTLDs (goSplit flags.requestTLDs) flags.reason],
        [Output.requested (goSplit flags.requestTLDs)], none),
       ([], [], none), ([], [], none)]
      ([] ++ [Call.newClient flags.username flags.password]) []
      (by intro s hs'; fin_cases hs' <;> rfl)
    simp only [List.cons_append, List.nil_append] at h ⊢
    rw [h]
    simp

/-- C8, witness: explicit request of `a,b` against a succeeding stub and
against one whose request call fails. -/
theorem request_explicit_single_call_witness :
    runMain flagsReqAb okEnv =
      ⟨[Call.newClient "u" "p", Call.authenticate,
        Call.requestTLDs ["a", "b"] "r"],
       [Output.requested ["a", "b"]], RunResult.finished⟩ ∧
    runMain flagsReqAb envReqFail =
      ⟨[Call.newClient "u" "p", Call.authenticate,
        Call.requestTLDs ["a", "b"] "r"],
       [], RunResult.fatal "reqfail"⟩ :=
  ⟨((request_explicit_single_call flagsReqAb okEnv (by decide) rfl rfl rfl (by decide)
      (by decide) rfl rfl rfl).2 rfl).trans (by decide),
   ((request_explicit_single_call flagsReqAb envReqFail (by decide) rfl rfl rfl (by decide)
      (by decide) rfl rfl rfl).1 "reqfail" rfl).trans (by decide)⟩

/-- C9: when a literal password is supplied, the password-source lookup is
never consulted; when it is empty, the lookup runs, and its failure is
fatal before the client is constructed (the trace is just the lookup
call, with no client-construction event). -/
theorem direct_password_skips_getpass (flags : Flags) (env : Env) :
    (flags.password ≠ "" → ∀ src, Call.getpass src ∉ (runMain flags env).trace) ∧
    (∀ e, flags.password = "" → env.getpass flags.passin = Except.error e →
      runMain flags env =
        ⟨[Call.getpass flags.passin], [],
         RunResult.fatal ("Unable to get password from user: " ++ e)⟩ ∧
      (∀ u p, Call.newClient u p ∉ (runMain flags env).trace)) := by
  constructor
  · intro hpw src hmem
    rw [runMain_pw flags env hpw] at hmem
    rcases runAfterPassword_calls flags env flags.password [] (Call.getpass src) hmem with
      h | h
    · simp at h
    · simp [classOf] at h
  · intro e hpw hgp
    rw [runMain_getpass_err flags env e hpw hgp]
    exact ⟨rfl, by simp⟩

/-- C9, witness: a direct password never triggers the lookup, and a
failing lookup aborts before the client exists. -/
theorem direct_password_skips_getpass_witness :
    Call.getpass "env:X" ∉ (runMain baseFlags okEnv).trace ∧
    runMain flagsPassin envPassFail =
      ⟨[Call.getpass "env:X"], [],
       RunResult.fatal "Unable to get password from user: nopw"⟩ ∧
    Call.newClient "u" "pw" ∉ (runMain flagsPassin envPassFail).trace :=
  ⟨(direct_password_skips_getpass baseFlags okEnv).1 (by decide) "env:X",
   (((direct_password_skips_getpass flagsPassin envPassFail).2 "nopw" rfl rfl).1).trans
     (by decide),
   ((direct_password_skips_getpass flagsPassin envPassFail).2 "nopw" rfl rfl).2 "u" "pw"⟩

/-- C10: the exclusion list passed to bulk calls is always non-empty —
`goSplit` never returns the empty list, and splitting the empty exclusion
string yields `[""]` — and the bulk request and bulk extend remote calls
receive exactly that split of the `exclude` flag. -/
theorem bulk_exclusion_list_nonempty :
    (∀ s, goSplit s ≠ []) ∧
    goSplit "" = [""] ∧
    (∀ flags env, flags.password ≠ "" → flags.printTerms = false →
      flags.status = false → flags.requestAll = true → flags.reason ≠ "" →
      env.authenticate = Except.ok () →
      Call.requestAllTLDsExcept flags.reason (goSplit flags.exclude) ∈
        (runMain flags env).trace) ∧
    (∀ flags env, flags.password ≠ "" → flags.printTerms = false →
      flags.status = false → flags.requestAll = false → flags.requestTLDs = "" →
      flags.extendAll = true → env.authenticate = Except.ok () →
      Call.extendAllTLDsExcept (goSplit flags.exclude) ∈ (runMain flags env).trace) := by
  refine ⟨goSplit_ne_nil, goSplit_empty, ?_, ?_⟩
  · intro flags env hpw ht hs hra hr hauth
    rw [runMain_pw flags env hpw,
      runAfterPassword_run flags env flags.password [] (Or.inr (Or.inr (Or.inl hra))),
      authStep_ok env hauth, termsStep_off flags env ht, statusStep_off flags env hs]
    rcases hreq : env.requestAllTLDsExcept flags.reason (goSplit flags.exclude) with e | l
    · rw [requestStep_bulk_err flags env e hra hr hreq]
      have h := runSteps_stop
        [([Call.authenticate], [], none), ([], [], none), ([], [], none)]
        [Call.requestAllTLDsExcept flags.reason (goSplit flags.exclude)] [] e
        [extendStep flags env, cancelStep flags env]
        ([] ++ [Call.newClient flags.username flags.password]) []
        (by intro s hs'; fin_cases hs' <;> rfl)
      simp only [List.cons_append, List.nil_append] at h ⊢
      rw [h]
      simp
    · rw [requestStep_bulk_ok flags env l hra hr hreq]
      rw [runSteps_cons_none, runSteps_cons_none, runSteps_cons_none, runSteps_cons_none]
      apply runSteps_mem_tr
      simp
  · intro flags env hpw ht hs hra hrt hea hauth
    rw [runMain_pw flags env hpw,
      runAfterPassword_run flags env flags.password []
        (Or.inr (Or.inr (Or.inr (Or.inr (Or.inl hea))))),
      authStep_ok env hauth, termsStep_off flags env ht, statusStep_off flags env hs,
      requestStep_off flags env hra hrt]
    rcases hext : env.extendAllTLDsExcept (goSplit flags.exclude) with e | l
    · rw [extendStep_bulk_err flags env e hea hext]
      have h := runSteps_stop
        [([Call.authenticate], [], none), ([], [], none), ([], [], none), ([], [], none)]
        [Call.extendAllTLDsExcept (goSplit flags.exclude)] [] e
        [cancelStep flags env]
        ([] ++ [Call.newClient flags.username flags.password]) []
        (by intro s hs'; fin_cases hs' <;> rfl)
      simp only [List.cons_append, List.nil_append] at h ⊢
      rw [h]
      simp
    · rw [extendStep_bulk_ok flags env l hea hext]
      rw [runSteps_cons_none, runSteps_cons_none, runSteps_cons_none, runSteps_cons_none,
        runSteps_cons_none]
      apply runSteps_mem_tr
      simp

/-- C10, witness: with no exclusions supplied the bulk request and bulk
extend calls each receive the one-element exclusion list `[""]`. -/
theorem bulk_exclusion_list_nonempty_witness :
    goSplit "" = [""] ∧
    Call.requestAllTLDsExcept "r" [""] ∈ (runMain flagsBulkReq okEnv).trace ∧
    Call.extendAllTLDsExcept [""] ∈ (runMain flagsBulkExt okEnv).trace :=
  ⟨bulk_exclusion_list_nonempty.2.1,
   by have h := bulk_exclusion_list_nonempty.2.2.1 flagsBulkReq okEnv (by decide) rfl rfl
        rfl (by decide) rfl
      rw [show goSplit flagsBulkReq.exclude = [""] from by decide,
        show flagsBulkReq.reason = "r" from rfl] at h
      exact h,
   by have h := bulk_exclusion_list_nonempty.2.2.2 flagsBulkExt okEnv (by decide) rfl rfl
        rfl rfl rfl rfl
      rw [show goSplit flagsBulkExt.exclude = [""] from by decide] at h
      exact h⟩

end Czds
